import Mathlib

/-!
# Verification of the discopic opportunity-detection engine

Shallow embedding of `js/arbitrage.js` (the `Arbitrage` object): quotes,
the opportunity detector `calculateOpportunities`, and the analytics
helpers `getStats`, `filterByPair`, `filterByMinProfit`,
`calculateProfitAmount` and `isValid`.

JavaScript numbers are modelled as rationals (`ℚ`); the fee-schedule
object is an association list from exchange identifiers to percentages;
the timestamp written by the detector (`new Date().toISOString()`) is
made explicit as an integer `now` parameter (milliseconds), which is also
what `isValid` reads back via `getTime()`.
-/

/-- One exchange's top-of-book for one trading pair, as produced by
`CoinAPI.getQuotesForPair` and consumed by the detector. -/
structure Quote where
  exchange : String
  pair : String
  ask : ℚ
  bid : ℚ
  askVolume : ℚ
  bidVolume : ℚ
deriving DecidableEq, Repr

/-- A detected arbitrage opportunity, with the exact fields pushed by
`Arbitrage.calculateOpportunities`. -/
structure Opportunity where
  pair : String
  buyExchange : String
  buyPrice : ℚ
  sellExchange : String
  sellPrice : ℚ
  spread : ℚ
  grossProfit : ℚ
  netProfit : ℚ
  buyFee : ℚ
  sellFee : ℚ
  totalFee : ℚ
  volume : ℚ
  timestamp : ℤ
deriving DecidableEq, Repr

/-- The fee lookup `fees[exchange] || 0.1` of the source: JavaScript `||`
falls back to `0.1` both when the key is absent and when the stored value
is `0`, because the number zero is falsy. -/
def feeFor (fees : List (String × ℚ)) (ex : String) : ℚ :=
  match fees.lookup ex with
  | some v => if v = 0 then 1/10 else v
  | none => 1/10

/-- The body of the inner double loop of `calculateOpportunities` for one
directed pair of quotes (buy leg `buyQ`, sell leg `sellQ`): skip when
`sellPrice <= buyPrice`, compute fees and profit, and emit only when
`netProfit >= minProfit`. -/
def mkOpp (fees : List (String × ℚ)) (minProfit : ℚ) (now : ℤ)
    (pair : String) (buyQ sellQ : Quote) : Option Opportunity :=
  let buyPrice := buyQ.ask
  let sellPrice := sellQ.bid
  if sellPrice ≤ buyPrice then none
  else
    let buyFee := feeFor fees buyQ.exchange
    let sellFee := feeFor fees sellQ.exchange
    let totalFee := buyFee + sellFee
    let grossProfit := (sellPrice - buyPrice) / buyPrice * 100
    let netProfit := grossProfit - totalFee
    if minProfit ≤ netProfit then
      some
        { pair := pair
          buyExchange := buyQ.exchange
          buyPrice := buyPrice
          sellExchange := sellQ.exchange
          sellPrice := sellPrice
          spread := sellPrice - buyPrice
          grossProfit := grossProfit
          netProfit := netProfit
          buyFee := buyFee
          sellFee := sellFee
          totalFee := totalFee
          volume := min buyQ.askVolume sellQ.bidVolume
          timestamp := now }
    else none

/-- The per-pair double loop `for i ... for j ... if (i === j) continue`
over one pair group, guarded by `if (pairQuotes.length < 2) continue`. -/
def pairOpportunities (fees : List (String × ℚ)) (minProfit : ℚ) (now : ℤ)
    (pair : String) (pairQuotes : List Quote) : List Opportunity :=
  if pairQuotes.length < 2 then []
  else
    (List.range pairQuotes.length).flatMap fun i =>
      (List.range pairQuotes.length).filterMap fun j =>
        if i = j then none
        else
          match pairQuotes[i]?, pairQuotes[j]? with
          | some bq, some sq => mkOpp fees minProfit now pair bq sq
          | _, _ => none

/-- The distinct pair keys of a quote batch in first-occurrence order:
JavaScript object keys such as `"BTC/USDT"` iterate in insertion order. -/
def pairKeys (quotes : List Quote) : List String :=
  quotes.foldl (fun ks q => if ks.contains q.pair then ks else ks ++ [q.pair]) []

/-- The helper `Arbitrage.groupByPair`: each group holds its pair's quotes
in input order, and groups appear in first-occurrence order of their key. -/
def groupByPair (quotes : List Quote) : List (String × List Quote) :=
  (pairKeys quotes).map fun k => (k, quotes.filter fun q => q.pair == k)

/-- The sort comparator `(a, b) => b.netProfit - a.netProfit`: `a` may
precede `b` when `a` has the larger (or equal) net profit. -/
def profitGe (a b : Opportunity) : Prop := b.netProfit ≤ a.netProfit

instance : DecidableRel profitGe :=
  fun a b => inferInstanceAs (Decidable (b.netProfit ≤ a.netProfit))

instance : IsTotal Opportunity profitGe :=
  ⟨fun a b => le_total b.netProfit a.netProfit⟩

instance : IsTrans Opportunity profitGe :=
  ⟨fun _ _ _ hab hbc => le_trans hbc hab⟩

/-- The `opportunities` array of `calculateOpportunities` before the final
sort, in push order. -/
def rawOpportunities (quotes : List Quote) (fees : List (String × ℚ))
    (minProfit : ℚ) (now : ℤ) : List Opportunity :=
  (groupByPair quotes).flatMap fun g => pairOpportunities fees minProfit now g.1 g.2

/-- The detector `Arbitrage.calculateOpportunities(quotes, fees,
minProfit = 0.5)`: enumerate directed cross-exchange pairs per trading
pair and sort the result by net profit, highest first. -/
def calculateOpportunities (quotes : List Quote) (fees : List (String × ℚ))
    (minProfit : ℚ := 1/2) (now : ℤ := 0) : List Opportunity :=
  List.insertionSort profitGe (rawOpportunities quotes fees minProfit now)

/-- The record returned by `Arbitrage.getStats`. -/
structure Stats where
  count : ℕ
  avgProfit : ℚ
  maxProfit : ℚ
  totalVolume : ℚ
deriving DecidableEq, Repr

/-- The spread call `Math.max(...xs)` over a nonempty list (the empty
case is never reached inside `getStats`). -/
def listMax : List ℚ → ℚ
  | [] => 0
  | x :: xs => xs.foldl max x

/-- The statistics helper `Arbitrage.getStats`: summary statistics, with
the empty input special-cased to all zeroes. -/
def getStats (opps : List Opportunity) : Stats :=
  if opps.length = 0 then
    { count := 0, avgProfit := 0, maxProfit := 0, totalVolume := 0 }
  else
    let profits := opps.map (·.netProfit)
    let volumes := opps.map (·.volume)
    { count := opps.length
      avgProfit := profits.foldl (· + ·) 0 / (profits.length : ℚ)
      maxProfit := listMax profits
      totalVolume := volumes.foldl (· + ·) 0 }

/-- The filter `Arbitrage.filterByPair`: the sentinel values `""` (falsy)
and `"all"` return the input unchanged; otherwise exact-match filter. -/
def filterByPair (opps : List Opportunity) (pair : String) : List Opportunity :=
  if pair = "" ∨ pair = "all" then opps
  else opps.filter fun o => o.pair == pair

/-- The filter `Arbitrage.filterByMinProfit`. -/
def filterByMinProfit (opps : List Opportunity) (minProfit : ℚ) : List Opportunity :=
  opps.filter fun o => minProfit ≤ o.netProfit

/-- The record returned by `Arbitrage.calculateProfitAmount`. -/
structure ProfitBreakdown where
  investmentAmount : ℚ
  buyAmount : ℚ
  buyFeeAmount : ℚ
  netBuyAmount : ℚ
  sellValue : ℚ
  sellFeeAmount : ℚ
  netSellValue : ℚ
  profit : ℚ
  profitPercent : ℚ
deriving DecidableEq, Repr

/-- The projection `Arbitrage.calculateProfitAmount`: simulate investing
`investmentAmount` in the opportunity and report every intermediate
quantity. -/
def calculateProfitAmount (opp : Opportunity) (investmentAmount : ℚ) :
    ProfitBreakdown :=
  let buyAmount := investmentAmount / opp.buyPrice
  let buyFeeAmount := buyAmount * opp.buyFee / 100
  let netBuyAmount := buyAmount - buyFeeAmount
  let sellValue := netBuyAmount * opp.sellPrice
  let sellFeeAmount := sellValue * opp.sellFee / 100
  let netSellValue := sellValue - sellFeeAmount
  let profit := netSellValue - investmentAmount
  let profitPercent := profit / investmentAmount * 100
  { investmentAmount := investmentAmount
    buyAmount := buyAmount
    buyFeeAmount := buyFeeAmount
    netBuyAmount := netBuyAmount
    sellValue := sellValue
    sellFeeAmount := sellFeeAmount
    netSellValue := netSellValue
    profit := profit
    profitPercent := profitPercent }

/-- The staleness check `Arbitrage.isValid(opportunity, maxAge = 60000)`:
fresh iff the age `now - timestamp` is under `maxAge` and the net profit
is positive. -/
def isValid (opp : Opportunity) (now : ℤ) (maxAge : ℤ := 60000) : Bool :=
  decide (now - opp.timestamp < maxAge) && decide ((0 : ℚ) < opp.netProfit)

/-! ## General lemmas about the detector -/

/-- Characterization of the fee lookup: nonzero present entries are
returned as-is; absent entries and zero entries give the 0.1 default. -/
lemma feeFor_eq (fees : List (String × ℚ)) (ex : String) :
    (∀ v, fees.lookup ex = some v → v ≠ 0 → feeFor fees ex = v) ∧
    ((fees.lookup ex = none ∨ fees.lookup ex = some 0) → feeFor fees ex = 1/10) := by
  unfold feeFor
  cases h : fees.lookup ex with
  | none => simp
  | some v =>
    constructor
    · intro w hw hne
      rw [Option.some.injEq] at hw
      subst hw
      simp [hne]
    · rintro (h' | h')
      · exact absurd h' (by simp)
      · rw [Option.some.injEq] at h'
        subst h'
        simp

/-- Everything `mkOpp` promises when it emits an opportunity: the prices
compared strictly, the threshold met, and the exact record produced. -/
lemma mkOpp_eq_some {fees : List (String × ℚ)} {minProfit : ℚ} {now : ℤ}
    {pair : String} {bq sq : Quote} {o : Opportunity}
    (h : mkOpp fees minProfit now pair bq sq = some o) :
    bq.ask < sq.bid ∧
    minProfit ≤ (sq.bid - bq.ask) / bq.ask * 100 -
      (feeFor fees bq.exchange + feeFor fees sq.exchange) ∧
    o = { pair := pair
          buyExchange := bq.exchange
          buyPrice := bq.ask
          sellExchange := sq.exchange
          sellPrice := sq.bid
          spread := sq.bid - bq.ask
          grossProfit := (sq.bid - bq.ask) / bq.ask * 100
          netProfit := (sq.bid - bq.ask) / bq.ask * 100 -
            (feeFor fees bq.exchange + feeFor fees sq.exchange)
          buyFee := feeFor fees bq.exchange
          sellFee := feeFor fees sq.exchange
          totalFee := feeFor fees bq.exchange + feeFor fees sq.exchange
          volume := min bq.askVolume sq.bidVolume
          timestamp := now } := by
  simp only [mkOpp] at h
  split at h
  · exact absurd h (by simp)
  · next h1 =>
    split at h
    · next h2 =>
      rw [Option.some.injEq] at h
      exact ⟨lt_of_not_le h1, h2, h.symm⟩
    · exact absurd h (by simp)

/-- Raising the threshold can only drop candidates; the emitted record is
otherwise unchanged. -/
lemma mkOpp_mono {fees : List (String × ℚ)} {t₁ t₂ : ℚ} {now : ℤ}
    {pair : String} {bq sq : Quote} {o : Opportunity} (h12 : t₁ ≤ t₂)
    (h : mkOpp fees t₂ now pair bq sq = some o) :
    mkOpp fees t₁ now pair bq sq = some o := by
  simp only [mkOpp] at h ⊢
  by_cases h1 : sq.bid ≤ bq.ask
  · rw [if_pos h1] at h
    exact absurd h (by simp)
  · rw [if_neg h1] at h ⊢
    by_cases h2 : t₂ ≤ (sq.bid - bq.ask) / bq.ask * 100 -
        (feeFor fees bq.exchange + feeFor fees sq.exchange)
    · rw [if_pos h2] at h
      rw [if_pos (h12.trans h2)]
      exact h
    · rw [if_neg h2] at h
      exact absurd h (by simp)

/-- Any member of a per-pair batch of opportunities comes from two
distinct positions in the group. -/
lemma mem_pairOpportunities {fees : List (String × ℚ)} {minProfit : ℚ}
    {now : ℤ} {pair : String} {pq : List Quote} {o : Opportunity}
    (h : o ∈ pairOpportunities fees minProfit now pair pq) :
    ∃ (i j : ℕ) (bq sq : Quote), i ≠ j ∧ pq[i]? = some bq ∧ pq[j]? = some sq ∧
      mkOpp fees minProfit now pair bq sq = some o := by
  rw [pairOpportunities] at h
  split at h
  · simp at h
  · rw [List.mem_flatMap] at h
    obtain ⟨i, -, h⟩ := h
    rw [List.mem_filterMap] at h
    obtain ⟨j, -, h⟩ := h
    split at h
    · exact absurd h (by simp)
    · next hij =>
      cases hbq : pq[i]? with
      | none => rw [hbq] at h; exact absurd h (by simp)
      | some bq =>
        cases hsq : pq[j]? with
        | none => rw [hbq, hsq] at h; exact absurd h (by simp)
        | some sq =>
          rw [hbq, hsq] at h
          exact ⟨i, j, bq, sq, hij, hbq, hsq, h⟩

/-- Any member of the raw opportunity list comes from two distinct
positions of the quote group of some pair key. -/
lemma mem_rawOpportunities {quotes : List Quote} {fees : List (String × ℚ)}
    {minProfit : ℚ} {now : ℤ} {o : Opportunity}
    (h : o ∈ rawOpportunities quotes fees minProfit now) :
    ∃ k, k ∈ pairKeys quotes ∧
      ∃ (i j : ℕ) (bq sq : Quote), i ≠ j ∧
        (quotes.filter fun q => q.pair == k)[i]? = some bq ∧
        (quotes.filter fun q => q.pair == k)[j]? = some sq ∧
        mkOpp fees minProfit now k bq sq = some o := by
  rw [rawOpportunities, groupByPair] at h
  rw [List.mem_flatMap] at h
  obtain ⟨g, hg, h⟩ := h
  rw [List.mem_map] at hg
  obtain ⟨k, hk, rfl⟩ := hg
  exact ⟨k, hk, mem_pairOpportunities h⟩

/-- Sorting does not change membership. -/
lemma mem_calculateOpportunities {quotes : List Quote}
    {fees : List (String × ℚ)} {minProfit : ℚ} {now : ℤ} {o : Opportunity} :
    o ∈ calculateOpportunities quotes fees minProfit now ↔
      o ∈ rawOpportunities quotes fees minProfit now := by
  rw [calculateOpportunities]
  exact (List.perm_insertionSort _ _).mem_iff

/-- A pointwise-stricter partial map yields a sublist. -/
lemma filterMap_sublist_mono {α β : Type _} {f g : α → Option β}
    (hfg : ∀ x y, f x = some y → g x = some y) :
    ∀ l : List α, (l.filterMap f).Sublist (l.filterMap g)
  | [] => by simp
  | x :: l => by
    cases hfx : f x with
    | none =>
      rw [List.filterMap_cons_none hfx]
      cases hgx : g x with
      | none =>
        rw [List.filterMap_cons_none hgx]
        exact filterMap_sublist_mono hfg l
      | some y =>
        rw [List.filterMap_cons_some hgx]
        exact (filterMap_sublist_mono hfg l).cons y
    | some y =>
      rw [List.filterMap_cons_some hfx, List.filterMap_cons_some (hfg x y hfx)]
      exact (filterMap_sublist_mono hfg l).cons₂ y

/-- Pointwise sublists glue to a sublist of the flattened map. -/
lemma flatMap_sublist_mono {α β : Type _} {f g : α → List β}
    (h : ∀ x, (f x).Sublist (g x)) :
    ∀ l : List α, (l.flatMap f).Sublist (l.flatMap g)
  | [] => by simp
  | x :: l => by
    rw [List.flatMap_cons, List.flatMap_cons]
    exact (h x).append (flatMap_sublist_mono h l)

/-- Raising the threshold turns the per-pair batch into a sublist. -/
lemma pairOpportunities_sublist {fees : List (String × ℚ)} {t₁ t₂ : ℚ}
    {now : ℤ} {pair : String} {pq : List Quote} (h12 : t₁ ≤ t₂) :
    (pairOpportunities fees t₂ now pair pq).Sublist
      (pairOpportunities fees t₁ now pair pq) := by
  rw [pairOpportunities, pairOpportunities]
  split
  · simp
  · apply flatMap_sublist_mono
    intro i
    apply filterMap_sublist_mono
    intro j o hj
    by_cases hij : i = j
    · rw [if_pos hij] at hj
      exact absurd hj (by simp)
    · rw [if_neg hij] at hj ⊢
      cases hbq : pq[i]? with
      | none => rw [hbq] at hj; exact absurd hj (by simp)
      | some bq =>
        cases hsq : pq[j]? with
        | none => rw [hbq, hsq] at hj; exact absurd hj (by simp)
        | some sq =>
          rw [hbq, hsq] at hj
          exact mkOpp_mono h12 hj

/-- Raising the threshold turns the raw list into a sublist. -/
lemma rawOpportunities_sublist {quotes : List Quote}
    {fees : List (String × ℚ)} {t₁ t₂ : ℚ} {now : ℤ} (h12 : t₁ ≤ t₂) :
    (rawOpportunities quotes fees t₂ now).Sublist
      (rawOpportunities quotes fees t₁ now) := by
  rw [rawOpportunities, rawOpportunities]
  exact flatMap_sublist_mono (fun _ => pairOpportunities_sublist h12) _

/-! ## Claim theorems: invariants of the detector -/

/-- C3: every opportunity returned by the detector has a strictly higher
sell price than buy price, a net profit meeting the threshold, and a net
profit equal to the gross profit minus the total fee. -/
theorem detect_only_profitable (quotes : List Quote) (fees : List (String × ℚ))
    (minProfit : ℚ) (now : ℤ) (o : Opportunity)
    (ho : o ∈ calculateOpportunities quotes fees minProfit now) :
    o.buyPrice < o.sellPrice ∧ minProfit ≤ o.netProfit ∧
      o.netProfit = o.grossProfit - o.totalFee := by
  obtain ⟨k, -, i, j, bq, sq, -, -, -, hmk⟩ :=
    mem_rawOpportunities (mem_calculateOpportunities.mp ho)
  obtain ⟨hlt, hth, rfl⟩ := mkOpp_eq_some hmk
  exact ⟨hlt, hth, rfl⟩

/-- C1 (amended): when no two distinct input quotes share both pair and
exchange, the detector never pairs an exchange against itself. -/
theorem detect_distinct_exchanges (quotes : List Quote)
    (fees : List (String × ℚ)) (minProfit : ℚ) (now : ℤ)
    (hdist : quotes.Pairwise fun a b => a.pair = b.pair → a.exchange ≠ b.exchange)
    (o : Opportunity) (ho : o ∈ calculateOpportunities quotes fees minProfit now) :
    o.buyExchange ≠ o.sellExchange := by
  obtain ⟨k, -, i, j, bq, sq, hij, hbq, hsq, hmk⟩ :=
    mem_rawOpportunities (mem_calculateOpportunities.mp ho)
  obtain ⟨-, -, rfl⟩ := mkOpp_eq_some hmk
  have hsub : (quotes.filter fun q => q.pair == k).Pairwise
      fun a b => a.pair = b.pair → a.exchange ≠ b.exchange :=
    hdist.sublist (List.filter_sublist _)
  obtain ⟨hi, hbe⟩ := List.getElem?_eq_some.mp hbq
  obtain ⟨hj, hse⟩ := List.getElem?_eq_some.mp hsq
  have hbmem : bq ∈ quotes.filter fun q => q.pair == k := by
    rw [← hbe]; exact List.getElem_mem _
  have hsmem : sq ∈ quotes.filter fun q => q.pair == k := by
    rw [← hse]; exact List.getElem_mem _
  have hbp : bq.pair = k := by simpa using (List.mem_filter.mp hbmem).2
  have hsp : sq.pair = k := by simpa using (List.mem_filter.mp hsmem).2
  rcases lt_or_gt_of_ne hij with hlt | hgt
  · have hr := List.pairwise_iff_getElem.mp hsub i j hi hj hlt
    rw [hbe, hse] at hr
    exact hr (hbp.trans hsp.symm)
  · have hr := List.pairwise_iff_getElem.mp hsub j i hj hi hgt
    rw [hbe, hse] at hr
    exact fun he => hr (hsp.trans hbp.symm) he.symm

/-- C2 (amended): each leg's fee is the fee schedule's entry for that
leg's exchange when a nonzero entry is present, and the 0.1 default when
the exchange is absent or its entry is zero; the total fee is their sum. -/
theorem detect_fee_schedule (quotes : List Quote) (fees : List (String × ℚ))
    (minProfit : ℚ) (now : ℤ) (o : Opportunity)
    (ho : o ∈ calculateOpportunities quotes fees minProfit now) :
    (∀ v, fees.lookup o.buyExchange = some v → v ≠ 0 → o.buyFee = v) ∧
    ((fees.lookup o.buyExchange = none ∨ fees.lookup o.buyExchange = some 0) →
      o.buyFee = 1/10) ∧
    (∀ v, fees.lookup o.sellExchange = some v → v ≠ 0 → o.sellFee = v) ∧
    ((fees.lookup o.sellExchange = none ∨ fees.lookup o.sellExchange = some 0) →
      o.sellFee = 1/10) ∧
    o.totalFee = o.buyFee + o.sellFee := by
  obtain ⟨k, -, i, j, bq, sq, -, -, -, hmk⟩ :=
    mem_rawOpportunities (mem_calculateOpportunities.mp ho)
  obtain ⟨-, -, rfl⟩ := mkOpp_eq_some hmk
  exact ⟨(feeFor_eq fees bq.exchange).1, (feeFor_eq fees bq.exchange).2,
    (feeFor_eq fees sq.exchange).1, (feeFor_eq fees sq.exchange).2, rfl⟩

/-- C4: the returned sequence is non-increasing in net profit: any
earlier position holds at least the net profit of any later position. -/
theorem detect_sorted_by_netProfit (quotes : List Quote)
    (fees : List (String × ℚ)) (minProfit : ℚ) (now : ℤ) (k l : ℕ)
    (a b : Opportunity) (hkl : k < l)
    (ha : (calculateOpportunities quotes fees minProfit now)[k]? = some a)
    (hb : (calculateOpportunities quotes fees minProfit now)[l]? = some b) :
    b.netProfit ≤ a.netProfit := by
  have hs : List.Sorted profitGe (calculateOpportunities quotes fees minProfit now) :=
    List.sorted_insertionSort profitGe _
  obtain ⟨hk, hae⟩ := List.getElem?_eq_some.mp ha
  obtain ⟨hl, hbe⟩ := List.getElem?_eq_some.mp hb
  have hr := List.pairwise_iff_getElem.mp hs k l hk hl hkl
  rw [hae, hbe] at hr
  exact hr

/-- C5: raising the threshold keeps every returned opportunity inside the
lower-threshold result and never increases the result count. -/
theorem detect_threshold_mono (quotes : List Quote)
    (fees : List (String × ℚ)) (t₁ t₂ : ℚ) (now : ℤ) (h12 : t₁ ≤ t₂) :
    (∀ o ∈ calculateOpportunities quotes fees t₂ now,
      o ∈ calculateOpportunities quotes fees t₁ now) ∧
    (calculateOpportunities quotes fees t₂ now).length ≤
      (calculateOpportunities quotes fees t₁ now).length := by
  constructor
  · intro o ho
    exact mem_calculateOpportunities.mpr
      ((rawOpportunities_sublist h12).subset (mem_calculateOpportunities.mp ho))
  · rw [calculateOpportunities, calculateOpportunities,
      List.length_insertionSort, List.length_insertionSort]
    exact (rawOpportunities_sublist h12).length_le

/-! ## Claim theorems: analytics -/

/-- C7: the statistics of the empty opportunity list are all zero; the
empty input is special-cased, so no division by zero occurs. -/
theorem getStats_empty :
    getStats [] = { count := 0, avgProfit := 0, maxProfit := 0, totalVolume := 0 } :=
  rfl

/-- C8: the profit projection returns exactly the specified quantities,
every intermediate included in the result. -/
theorem calculateProfitAmount_spec (opp : Opportunity) (inv : ℚ)
    (_hb : 0 < opp.buyPrice) (_hi : 0 < inv) :
    (calculateProfitAmount opp inv).investmentAmount = inv ∧
    (calculateProfitAmount opp inv).buyAmount = inv / opp.buyPrice ∧
    (calculateProfitAmount opp inv).buyFeeAmount =
      (calculateProfitAmount opp inv).buyAmount * opp.buyFee / 100 ∧
    (calculateProfitAmount opp inv).netBuyAmount =
      (calculateProfitAmount opp inv).buyAmount -
        (calculateProfitAmount opp inv).buyFeeAmount ∧
    (calculateProfitAmount opp inv).sellValue =
      (calculateProfitAmount opp inv).netBuyAmount * opp.sellPrice ∧
    (calculateProfitAmount opp inv).sellFeeAmount =
      (calculateProfitAmount opp inv).sellValue * opp.sellFee / 100 ∧
    (calculateProfitAmount opp inv).netSellValue =
      (calculateProfitAmount opp inv).sellValue -
        (calculateProfitAmount opp inv).sellFeeAmount ∧
    (calculateProfitAmount opp inv).profit =
      (calculateProfitAmount opp inv).netSellValue - inv ∧
    (calculateProfitAmount opp inv).profitPercent =
      (calculateProfitAmount opp inv).profit / inv * 100 :=
  ⟨rfl, rfl, rfl, rfl, rfl, rfl, rfl, rfl, rfl⟩

/-- C9: an opportunity is fresh exactly when its age is strictly below
the maximum and its net profit is strictly positive; the maximum age
defaults to 60000 ms. -/
theorem isValid_iff (opp : Opportunity) (now maxAge : ℤ) :
    (isValid opp now maxAge = true ↔
      now - opp.timestamp < maxAge ∧ 0 < opp.netProfit) ∧
    isValid opp now = isValid opp now 60000 := by
  constructor
  · simp [isValid]
  · rfl

/-- C10: both filters return order-preserving subsequences of their input
that retain exactly the elements satisfying the filter condition. -/
theorem filters_preserve_subsequence (opps : List Opportunity) (p : String)
    (minProfit : ℚ) :
    (filterByPair opps p).Sublist opps ∧
    filterByPair opps p =
      opps.filter (fun o => decide (p = "" ∨ p = "all" ∨ o.pair = p)) ∧
    (filterByMinProfit opps minProfit).Sublist opps ∧
    filterByMinProfit opps minProfit =
      opps.filter (fun o => decide (minProfit ≤ o.netProfit)) := by
  refine ⟨?_, ?_, List.filter_sublist _, rfl⟩
  · rw [filterByPair]
    split
    · exact List.Sublist.refl _
    · exact List.filter_sublist _
  · rw [filterByPair]
    split
    · next h =>
      refine (List.filter_eq_self.mpr ?_).symm
      intro o _
      rcases h with h | h <;> simp [h]
    · next h =>
      refine List.filter_congr ?_
      intro o _
      push_neg at h
      by_cases hpq : o.pair = p <;> simp [h.1, h.2, hpq]

/-! ## Concrete inputs for the scenarios, witnesses and counterexamples -/

/-- Scenario A, BINANCE quote. -/
def quoteBinanceA : Quote :=
  { exchange := "BINANCE", pair := "BTC/USDT", ask := 42000, bid := 41990
    askVolume := 1, bidVolume := 1 }

/-- Scenario A, COINBASE quote. -/
def quoteCoinbaseA : Quote :=
  { exchange := "COINBASE", pair := "BTC/USDT", ask := 42500, bid := 42480
    askVolume := 1, bidVolume := 1 }

/-- Scenario A quote batch. -/
def quotesA : List Quote := [quoteBinanceA, quoteCoinbaseA]

/-- Scenario A fee schedule. -/
def feesA : List (String × ℚ) := [("BINANCE", 1/10), ("COINBASE", 6/10)]

/-- The single opportunity produced by scenario A at threshold 0. -/
def oppA : Opportunity :=
  { pair := "BTC/USDT", buyExchange := "BINANCE", buyPrice := 42000
    sellExchange := "COINBASE", sellPrice := 42480, spread := 480
    grossProfit := 8/7, netProfit := 31/70, buyFee := 1/10, sellFee := 6/10
    totalFee := 7/10, volume := 1, timestamp := 0 }

lemma feeForA_bin : feeFor feesA "BINANCE" = 1/10 := by
  simp [feeFor, feesA, List.lookup]

lemma feeForA_coin : feeFor feesA "COINBASE" = 6/10 := by
  simp [feeFor, feesA, List.lookup]

lemma mkA_bc : mkOpp feesA 0 0 "BTC/USDT" quoteBinanceA quoteCoinbaseA = some oppA := by
  rw [mkOpp]
  simp only [quoteBinanceA, quoteCoinbaseA, feeForA_bin, feeForA_coin]
  norm_num [oppA, Opportunity.mk.injEq]

lemma mkA_cb : mkOpp feesA 0 0 "BTC/USDT" quoteCoinbaseA quoteBinanceA = none := by
  rw [mkOpp]
  simp only [quoteCoinbaseA, quoteBinanceA]
  norm_num

lemma mkA_bc_half : mkOpp feesA 2⁻¹ 0 "BTC/USDT" quoteBinanceA quoteCoinbaseA = none := by
  rw [mkOpp]
  simp only [quoteBinanceA, quoteCoinbaseA, feeForA_bin, feeForA_coin]
  norm_num

lemma mkA_cb_half : mkOpp feesA 2⁻¹ 0 "BTC/USDT" quoteCoinbaseA quoteBinanceA = none := by
  rw [mkOpp]
  simp only [quoteCoinbaseA, quoteBinanceA]
  norm_num

lemma groupA : groupByPair quotesA = [("BTC/USDT", quotesA)] := by
  simp [groupByPair, pairKeys, quotesA, quoteBinanceA, quoteCoinbaseA, List.filter]

lemma pairOppsA : pairOpportunities feesA 0 0 "BTC/USDT" quotesA = [oppA] := by
  rw [pairOpportunities]
  simp [quotesA, List.range_succ, mkA_bc, mkA_cb]

lemma pairOppsA_half : pairOpportunities feesA 2⁻¹ 0 "BTC/USDT" quotesA = [] := by
  rw [pairOpportunities]
  simp [quotesA, List.range_succ, mkA_bc_half, mkA_cb_half]

lemma calcA : calculateOpportunities quotesA feesA 0 0 = [oppA] := by
  rw [calculateOpportunities, rawOpportunities, groupA]
  simp [pairOppsA, List.insertionSort, List.orderedInsert]

lemma calcA_half : calculateOpportunities quotesA feesA (1/2) 0 = [] := by
  rw [calculateOpportunities, rawOpportunities, groupA,
    show (1/2 : ℚ) = 2⁻¹ by norm_num]
  simp [pairOppsA_half, List.insertionSort]

/-- Sorting scenario, BINANCE quote. -/
def quoteBinanceB : Quote :=
  { exchange := "BINANCE", pair := "ETH/USDT", ask := 100, bid := 99
    askVolume := 1, bidVolume := 1 }

/-- Sorting scenario, KRAKEN quote. -/
def quoteKrakenB : Quote :=
  { exchange := "KRAKEN", pair := "ETH/USDT", ask := 101, bid := 103
    askVolume := 1, bidVolume := 1 }

/-- Sorting scenario, BITSTAMP quote. -/
def quoteBitstampB : Quote :=
  { exchange := "BITSTAMP", pair := "ETH/USDT", ask := 95, bid := 94
    askVolume := 1, bidVolume := 1 }

/-- Sorting scenario quote batch: three quotes, three opportunities with
distinct net profits. -/
def quotesB : List Quote := [quoteBinanceB, quoteKrakenB, quoteBitstampB]

/-- Sorting scenario: buy on BINANCE, sell on KRAKEN (net 2.8). -/
def oppB_bk : Opportunity :=
  { pair := "ETH/USDT", buyExchange := "BINANCE", buyPrice := 100
    sellExchange := "KRAKEN", sellPrice := 103, spread := 3
    grossProfit := 3, netProfit := 14/5, buyFee := 1/10, sellFee := 1/10
    totalFee := 1/5, volume := 1, timestamp := 0 }

/-- Sorting scenario: buy on BITSTAMP, sell on BINANCE (net 381/95). -/
def oppB_sb : Opportunity :=
  { pair := "ETH/USDT", buyExchange := "BITSTAMP", buyPrice := 95
    sellExchange := "BINANCE", sellPrice := 99, spread := 4
    grossProfit := 80/19, netProfit := 381/95, buyFee := 1/10, sellFee := 1/10
    totalFee := 1/5, volume := 1, timestamp := 0 }

/-- Sorting scenario: buy on BITSTAMP, sell on KRAKEN (net 781/95). -/
def oppB_sk : Opportunity :=
  { pair := "ETH/USDT", buyExchange := "BITSTAMP", buyPrice := 95
    sellExchange := "KRAKEN", sellPrice := 103, spread := 8
    grossProfit := 160/19, netProfit := 781/95, buyFee := 1/10, sellFee := 1/10
    totalFee := 1/5, volume := 1, timestamp := 0 }

lemma feeFor_nil (ex : String) : feeFor [] ex = 1/10 := rfl

lemma mkB_01 : mkOpp [] 0 0 "ETH/USDT" quoteBinanceB quoteKrakenB = some oppB_bk := by
  rw [mkOpp]
  simp only [quoteBinanceB, quoteKrakenB, feeFor_nil]
  norm_num [oppB_bk, Opportunity.mk.injEq]

lemma mkB_02 : mkOpp [] 0 0 "ETH/USDT" quoteBinanceB quoteBitstampB = none := by
  rw [mkOpp]
  simp only [quoteBinanceB, quoteBitstampB]
  norm_num

lemma mkB_10 : mkOpp [] 0 0 "ETH/USDT" quoteKrakenB quoteBinanceB = none := by
  rw [mkOpp]
  simp only [quoteKrakenB, quoteBinanceB]
  norm_num

lemma mkB_12 : mkOpp [] 0 0 "ETH/USDT" quoteKrakenB quoteBitstampB = none := by
  rw [mkOpp]
  simp only [quoteKrakenB, quoteBitstampB]
  norm_num

lemma mkB_20 : mkOpp [] 0 0 "ETH/USDT" quoteBitstampB quoteBinanceB = some oppB_sb := by
  rw [mkOpp]
  simp only [quoteBitstampB, quoteBinanceB, feeFor_nil]
  norm_num [oppB_sb, Opportunity.mk.injEq]

lemma mkB_21 : mkOpp [] 0 0 "ETH/USDT" quoteBitstampB quoteKrakenB = some oppB_sk := by
  rw [mkOpp]
  simp only [quoteBitstampB, quoteKrakenB, feeFor_nil]
  norm_num [oppB_sk, Opportunity.mk.injEq]

lemma groupB : groupByPair quotesB = [("ETH/USDT", quotesB)] := by
  simp [groupByPair, pairKeys, quotesB, quoteBinanceB, quoteKrakenB, quoteBitstampB,
    List.filter]

lemma pairOppsB :
    pairOpportunities [] 0 0 "ETH/USDT" quotesB = [oppB_bk, oppB_sb, oppB_sk] := by
  rw [pairOpportunities]
  simp [quotesB, List.range_succ, mkB_01, mkB_02, mkB_10, mkB_12, mkB_20, mkB_21]

lemma calcB :
    calculateOpportunities quotesB [] 0 0 = [oppB_sk, oppB_sb, oppB_bk] := by
  rw [calculateOpportunities, rawOpportunities, groupB]
  simp only [List.flatMap_cons, List.flatMap_nil, List.append_nil]
  rw [show pairOpportunities [] 0 0 ("ETH/USDT", quotesB).1 ("ETH/USDT", quotesB).2 =
    [oppB_bk, oppB_sb, oppB_sk] from pairOppsB]
  rw [List.insertionSort, List.insertionSort, List.insertionSort, List.insertionSort]
  norm_num [List.orderedInsert, profitGe, oppB_bk, oppB_sb, oppB_sk]

/-- Duplicate-exchange input: a stale and a fresh BINANCE quote for the
same pair. -/
def quoteDupStale : Quote :=
  { exchange := "BINANCE", pair := "BTC/USDT", ask := 100, bid := 99
    askVolume := 1, bidVolume := 1 }

/-- Duplicate-exchange input, second BINANCE quote. -/
def quoteDupFresh : Quote :=
  { exchange := "BINANCE", pair := "BTC/USDT", ask := 102, bid := 103
    askVolume := 1, bidVolume := 1 }

/-- Duplicate-exchange quote batch. -/
def quotesDup : List Quote := [quoteDupStale, quoteDupFresh]

/-- The same-exchange opportunity the detector emits on `quotesDup`. -/
def oppDup : Opportunity :=
  { pair := "BTC/USDT", buyExchange := "BINANCE", buyPrice := 100
    sellExchange := "BINANCE", sellPrice := 103, spread := 3
    grossProfit := 3, netProfit := 14/5, buyFee := 1/10, sellFee := 1/10
    totalFee := 1/5, volume := 1, timestamp := 0 }

lemma mkDup_01 : mkOpp [] 0 0 "BTC/USDT" quoteDupStale quoteDupFresh = some oppDup := by
  rw [mkOpp]
  simp only [quoteDupStale, quoteDupFresh, feeFor_nil]
  norm_num [oppDup, Opportunity.mk.injEq]

lemma mkDup_10 : mkOpp [] 0 0 "BTC/USDT" quoteDupFresh quoteDupStale = none := by
  rw [mkOpp]
  simp only [quoteDupFresh, quoteDupStale]
  norm_num

lemma groupDup : groupByPair quotesDup = [("BTC/USDT", quotesDup)] := by
  simp [groupByPair, pairKeys, quotesDup, quoteDupStale, quoteDupFresh, List.filter]

lemma pairOppsDup : pairOpportunities [] 0 0 "BTC/USDT" quotesDup = [oppDup] := by
  rw [pairOpportunities]
  simp [quotesDup, List.range_succ, mkDup_01, mkDup_10]

lemma calcDup : calculateOpportunities quotesDup [] 0 0 = [oppDup] := by
  rw [calculateOpportunities, rawOpportunities, groupDup]
  simp [pairOppsDup, List.insertionSort, List.orderedInsert]

/-- Zero-fee-entry input, BINANCE quote. -/
def quoteZeroBinance : Quote :=
  { exchange := "BINANCE", pair := "BTC/USDT", ask := 100, bid := 99
    askVolume := 1, bidVolume := 1 }

/-- Zero-fee-entry input, COINBASE quote. -/
def quoteZeroCoinbase : Quote :=
  { exchange := "COINBASE", pair := "BTC/USDT", ask := 200, bid := 103
    askVolume := 1, bidVolume := 1 }

/-- Zero-fee-entry quote batch. -/
def quotesZero : List Quote := [quoteZeroBinance, quoteZeroCoinbase]

/-- A fee schedule with a present entry equal to zero for BINANCE. -/
def feesZero : List (String × ℚ) := [("BINANCE", 0)]

/-- The opportunity the detector emits on `quotesZero` with `feesZero`:
the zero entry is charged as 0.1, not 0. -/
def oppZero : Opportunity :=
  { pair := "BTC/USDT", buyExchange := "BINANCE", buyPrice := 100
    sellExchange := "COINBASE", sellPrice := 103, spread := 3
    grossProfit := 3, netProfit := 14/5, buyFee := 1/10, sellFee := 1/10
    totalFee := 1/5, volume := 1, timestamp := 0 }

lemma feeForZero_bin : feeFor feesZero "BINANCE" = 1/10 := by
  simp [feeFor, feesZero, List.lookup]

lemma feeForZero_coin : feeFor feesZero "COINBASE" = 1/10 := by
  simp [feeFor, feesZero, List.lookup]

lemma mkZero_01 :
    mkOpp feesZero 0 0 "BTC/USDT" quoteZeroBinance quoteZeroCoinbase = some oppZero := by
  rw [mkOpp]
  simp only [quoteZeroBinance, quoteZeroCoinbase, feeForZero_bin, feeForZero_coin]
  norm_num [oppZero, Opportunity.mk.injEq]

lemma mkZero_10 :
    mkOpp feesZero 0 0 "BTC/USDT" quoteZeroCoinbase quoteZeroBinance = none := by
  rw [mkOpp]
  simp only [quoteZeroCoinbase, quoteZeroBinance]
  norm_num

lemma groupZero : groupByPair quotesZero = [("BTC/USDT", quotesZero)] := by
  simp [groupByPair, pairKeys, quotesZero, quoteZeroBinance, quoteZeroCoinbase,
    List.filter]

lemma pairOppsZero : pairOpportunities feesZero 0 0 "BTC/USDT" quotesZero = [oppZero] := by
  rw [pairOpportunities]
  simp [quotesZero, List.range_succ, mkZero_01, mkZero_10]

lemma calcZero : calculateOpportunities quotesZero feesZero 0 0 = [oppZero] := by
  rw [calculateOpportunities, rawOpportunities, groupZero]
  simp [pairOppsZero, List.insertionSort, List.orderedInsert]

/-! ## Scenario theorem, witnesses and counterexamples -/

/-- C6: on scenario A with threshold 0 the detector returns exactly one
opportunity, buying on BINANCE at 42000 and selling on COINBASE at 42480,
with gross profit within 0.0001 of 1.1429, total fee exactly 0.7 and net
profit within 0.0001 of 0.4429; with threshold 0.5 it returns nothing. -/
theorem detect_scenarioA :
    calculateOpportunities quotesA feesA 0 0 = [oppA] ∧
    oppA.buyExchange = "BINANCE" ∧ oppA.buyPrice = 42000 ∧
    oppA.sellExchange = "COINBASE" ∧ oppA.sellPrice = 42480 ∧
    |oppA.grossProfit - 11429/10000| < 1/10000 ∧
    oppA.totalFee = 7/10 ∧
    |oppA.netProfit - 4429/10000| < 1/10000 ∧
    calculateOpportunities quotesA feesA (1/2) 0 = [] := by
  refine ⟨calcA, rfl, rfl, rfl, rfl, ?_, rfl, ?_, calcA_half⟩ <;> norm_num [oppA, abs_lt]

/-- C1 counterexample: with two BINANCE quotes for the same pair in the
input, the detector emits an opportunity that buys and sells on
BINANCE — it does pair an exchange against itself. -/
theorem detect_same_exchange_cx :
    (calculateOpportunities quotesDup [] 0 0).map
      (fun o => (o.buyExchange, o.sellExchange)) = [("BINANCE", "BINANCE")] := by
  rw [calcDup]
  rfl

/-- Witness for the amended C1 at scenario A's input. -/
theorem detect_distinct_exchanges_witness :
    (quotesA.Pairwise fun a b => a.pair = b.pair → a.exchange ≠ b.exchange) ∧
    oppA ∈ calculateOpportunities quotesA feesA 0 0 ∧
    oppA.buyExchange ≠ oppA.sellExchange := by
  have hp : quotesA.Pairwise fun a b => a.pair = b.pair → a.exchange ≠ b.exchange := by
    simp [quotesA, quoteBinanceA, quoteCoinbaseA]
  have hm : oppA ∈ calculateOpportunities quotesA feesA 0 0 := by
    rw [calcA]
    exact List.mem_singleton_self _
  exact ⟨hp, hm, detect_distinct_exchanges quotesA feesA 0 0 hp oppA hm⟩

/-- C2 counterexample: the schedule holds a present entry equal to zero
for BINANCE, yet the emitted buy-leg fee is 0.1, not the entry 0. -/
theorem detect_fee_zero_cx :
    List.lookup "BINANCE" feesZero = some 0 ∧
    (calculateOpportunities quotesZero feesZero 0 0).map
      (fun o => (o.buyExchange, o.buyFee)) = [("BINANCE", 1/10)] ∧
    (1/10 : ℚ) ≠ 0 := by
  refine ⟨by simp [feesZero, List.lookup], ?_, by norm_num⟩
  rw [calcZero]
  rfl

/-- Witness for the amended C2 at scenario A's input. -/
theorem detect_fee_schedule_witness :
    oppA ∈ calculateOpportunities quotesA feesA 0 0 ∧
    oppA.buyFee = 1/10 ∧ oppA.sellFee = 6/10 ∧
    oppA.totalFee = oppA.buyFee + oppA.sellFee := by
  have hm : oppA ∈ calculateOpportunities quotesA feesA 0 0 := by
    rw [calcA]
    exact List.mem_singleton_self _
  have h := detect_fee_schedule quotesA feesA 0 0 oppA hm
  refine ⟨hm, ?_, ?_, h.2.2.2.2⟩
  · exact h.1 (1/10) (by simp [feesA, List.lookup, oppA]) (by norm_num)
  · exact h.2.2.1 (6/10) (by simp [feesA, List.lookup, oppA]) (by norm_num)

/-- Witness for C3 at scenario A's input. -/
theorem detect_only_profitable_witness :
    oppA ∈ calculateOpportunities quotesA feesA 0 0 ∧
    (oppA.buyPrice < oppA.sellPrice ∧ (0 : ℚ) ≤ oppA.netProfit ∧
      oppA.netProfit = oppA.grossProfit - oppA.totalFee) := by
  have hm : oppA ∈ calculateOpportunities quotesA feesA 0 0 := by
    rw [calcA]
    exact List.mem_singleton_self _
  exact ⟨hm, detect_only_profitable quotesA feesA 0 0 oppA hm⟩

/-- Witness for C4 on the three-quote sorting scenario. -/
theorem detect_sorted_by_netProfit_witness :
    (0 : ℕ) < 1 ∧
    (calculateOpportunities quotesB [] 0 0)[0]? = some oppB_sk ∧
    (calculateOpportunities quotesB [] 0 0)[1]? = some oppB_sb ∧
    oppB_sb.netProfit ≤ oppB_sk.netProfit := by
  have h0 : (calculateOpportunities quotesB [] 0 0)[0]? = some oppB_sk := by
    rw [calcB]
    rfl
  have h1 : (calculateOpportunities quotesB [] 0 0)[1]? = some oppB_sb := by
    rw [calcB]
    rfl
  exact ⟨Nat.zero_lt_one, h0, h1,
    detect_sorted_by_netProfit quotesB [] 0 0 0 1 oppB_sk oppB_sb Nat.zero_lt_one h0 h1⟩

/-- Witness for C5 at scenario A's input with thresholds 0 and 0.5. -/
theorem detect_threshold_mono_witness :
    (0 : ℚ) ≤ 1/2 ∧
    (calculateOpportunities quotesA feesA (1/2) 0).length ≤
      (calculateOpportunities quotesA feesA 0 0).length :=
  ⟨by norm_num, (detect_threshold_mono quotesA feesA 0 (1/2) 0 (by norm_num)).2⟩

/-- Witness for C8 at scenario A's opportunity with a 1000 investment. -/
theorem calculateProfitAmount_spec_witness :
    (0 : ℚ) < oppA.buyPrice ∧ (0 : ℚ) < 1000 ∧
    (calculateProfitAmount oppA 1000).buyAmount = 1000 / oppA.buyPrice := by
  have hb : (0 : ℚ) < oppA.buyPrice := by norm_num [oppA]
  have hi : (0 : ℚ) < 1000 := by norm_num
  exact ⟨hb, hi, (calculateProfitAmount_spec oppA 1000 hb hi).2.1⟩
